import Mathlib

/-!
Verification development for the react-native-dynamic-toast notification
engine.  The definitions below are a shallow embedding of the repository's
source:

* the device classifier and per-class animation profiles
  (src/library/config/devices.ts),
* the three variant animators — DynamicIslandNotification,
  NotchNotification and ToastNotification — as a timer-driven state
  machine over their shared values, refs and scheduled callbacks,
* the presentation arbiter (NotificationProvider) with its active slot,
  close-handle reference and status-bar store effect.

Times are in milliseconds (naturals); geometry uses rationals.  The
event-loop is cooperative and single threaded, so each React commit
(state update, unmount cleanup, mount effect) is modelled as one atomic
step, and scheduled callbacks fire strictly in fire-time order with FIFO
tie-breaking, as JavaScript timers do.
-/

namespace DynamicToast

/-- Device classes distinguished by the library
(devices.ts, enum DeviceType). -/
inductive DeviceType where
  | dynamicIsland
  | notch
  | standard
deriving DecidableEq, Repr

/-- Membership table of device identifiers with a Dynamic Island
(devices.ts, devicesWithDynamicIsland). -/
def devicesWithDynamicIsland : List String :=
  ["iPhone14,2", "iPhone14,3", "iPhone15,2", "iPhone15,3", "iPhone16,1",
   "iPhone16,2", "iPhone16,3", "iPhone16,4", "iPhone16,5", "iPhone16,6",
   "iPhone16,7", "iPhone16,8", "arm64"]

/-- Membership table of device identifiers with a notch but no Dynamic
Island (devices.ts, devicesWithNotch). -/
def devicesWithNotch : List String :=
  ["iPhone10,3", "iPhone10,6", "iPhone11,2", "iPhone11,4", "iPhone11,6",
   "iPhone11,8", "iPhone12,1", "iPhone12,3", "iPhone12,5", "iPhone13,1",
   "iPhone13,2", "iPhone13,3", "iPhone13,4", "iPhone14,4", "iPhone14,5",
   "iPhone14,6", "iPhone14,7", "iPhone14,8"]

/-- Device classification (devices.ts, detectDeviceType).  The argument is
the optional device identifier; a missing or empty identifier is falsy in
the source and classifies as standard. -/
def detectDeviceType : Option String → DeviceType
  | none => .standard
  | some deviceId =>
    if deviceId = "" then .standard
    else if deviceId ∈ devicesWithDynamicIsland then .dynamicIsland
    else if deviceId ∈ devicesWithNotch then .notch
    else .standard

/-- Per-class animation configuration record
(devices.ts, type DeviceAnimationConfig). -/
structure DeviceAnimationConfig where
  minWidthRatio : ℚ
  maxWidthRatio : ℚ
  expandedHeight : ℚ
  borderRadius : ℚ
  initialScale : ℚ
  initialHeight : ℚ
deriving DecidableEq, Repr

/-- Base profile for Dynamic Island devices (devices.ts,
dynamicIslandConfig). -/
def dynamicIslandConfig : DeviceAnimationConfig :=
  { minWidthRatio := 3/10, maxWidthRatio := 9/10, expandedHeight := 75,
    borderRadius := 37, initialScale := 85/100, initialHeight := 38 }

/-- Base profile for notch devices (devices.ts, notchConfig). -/
def notchConfig : DeviceAnimationConfig :=
  { minWidthRatio := 4/10, maxWidthRatio := 9/10, expandedHeight := 80,
    borderRadius := 25, initialScale := 9/10, initialHeight := 30 }

/-- Base profile for standard devices (devices.ts, standardConfig). -/
def standardConfig : DeviceAnimationConfig :=
  { minWidthRatio := 3/10, maxWidthRatio := 9/10, expandedHeight := 70,
    borderRadius := 20, initialScale := 1, initialHeight := 0 }

/-- A device-specific override record: a Partial DeviceAnimationConfig in
the source, so every field is optional. -/
structure PartialDeviceConfig where
  minWidthRatio : Option ℚ := none
  maxWidthRatio : Option ℚ := none
  expandedHeight : Option ℚ := none
  borderRadius : Option ℚ := none
  initialScale : Option ℚ := none
  initialHeight : Option ℚ := none
deriving DecidableEq, Repr

/-- Exact-identifier override table (devices.ts, deviceSpecificConfigs),
modelled as an association list keyed by the identifier string. -/
def deviceSpecificConfigs : List (String × PartialDeviceConfig) :=
  [("iPhone16,1", { minWidthRatio := some (35/100), maxWidthRatio := some (8/10),
                    expandedHeight := some 80, initialScale := some (9/10) }),
   ("iPhone16,5", { minWidthRatio := some (35/100), maxWidthRatio := some (8/10),
                    expandedHeight := some 80, initialScale := some (9/10) }),
   ("iPhone16,2", { minWidthRatio := some (25/100), maxWidthRatio := some (75/100),
                    expandedHeight := some 80, initialScale := some (9/10) }),
   ("iPhone16,6", { minWidthRatio := some (25/100), maxWidthRatio := some (75/100),
                    expandedHeight := some 80, initialScale := some (9/10) }),
   ("iPhone15,4", { minWidthRatio := some (5/10), maxWidthRatio := some (85/100) }),
   ("iPhone14,8", { minWidthRatio := some (5/10), maxWidthRatio := some (85/100) })]

/-- Profile resolution (devices.ts, getDeviceAnimationConfig): choose the
base profile from the explicitly supplied device type when present
(otherwise classify the identifier), look up the exact-identifier override
record, and shallow-merge its present fields over the base. -/
def getDeviceAnimationConfig (deviceId : Option String)
    (deviceType : Option DeviceType) : DeviceAnimationConfig :=
  let t := match deviceType with
    | some t => t
    | none => detectDeviceType deviceId
  let baseConfig : DeviceAnimationConfig :=
    match t with
    | .dynamicIsland => dynamicIslandConfig
    | .notch => notchConfig
    | .standard => standardConfig
  let specificConfig : PartialDeviceConfig :=
    match deviceId with
    | some id =>
      if id = "" then {}
      else
        match deviceSpecificConfigs.find? (fun p => p.1 = id) with
        | some p => p.2
        | none => {}
    | none => {}
  { minWidthRatio := specificConfig.minWidthRatio.getD baseConfig.minWidthRatio,
    maxWidthRatio := specificConfig.maxWidthRatio.getD baseConfig.maxWidthRatio,
    expandedHeight := specificConfig.expandedHeight.getD baseConfig.expandedHeight,
    borderRadius := specificConfig.borderRadius.getD baseConfig.borderRadius,
    initialScale := specificConfig.initialScale.getD baseConfig.initialScale,
    initialHeight := specificConfig.initialHeight.getD baseConfig.initialHeight }

/-- Spec-side decomposition of profile resolution, following the words of
the specification for resolveProfile: the base profile selected for a
class.  Compared against getDeviceAnimationConfig in the refinement
theorem for claim C6. -/
def baseConfigFor : DeviceType → DeviceAnimationConfig
  | .dynamicIsland => dynamicIslandConfig
  | .notch => notchConfig
  | .standard => standardConfig

/-- Spec-side decomposition: the exact-identifier override applicable to a
device identifier, or the empty override when the identifier is absent,
empty, or keyed by no table entry. -/
def specificConfigFor : Option String → PartialDeviceConfig
  | none => {}
  | some id =>
    if id = "" then {}
    else ((deviceSpecificConfigs.find? (fun p => p.1 = id)).map Prod.snd).getD {}

/-- Spec-side decomposition: shallow merge of an override record over a
base profile, field by field. -/
def mergeConfig (base : DeviceAnimationConfig) (p : PartialDeviceConfig) :
    DeviceAnimationConfig :=
  { minWidthRatio := p.minWidthRatio.getD base.minWidthRatio,
    maxWidthRatio := p.maxWidthRatio.getD base.maxWidthRatio,
    expandedHeight := p.expandedHeight.getD base.expandedHeight,
    borderRadius := p.borderRadius.getD base.borderRadius,
    initialScale := p.initialScale.getD base.initialScale,
    initialHeight := p.initialHeight.getD base.initialHeight }

/-- The identifiers having an entry in the override table. -/
def deviceSpecificKeys : List String := deviceSpecificConfigs.map Prod.fst

/-!
Variant animators.  All three components — DynamicIslandNotification
(part_002), NotchNotification (NotchNotification.tsx) and
ToastNotification (part_001) — share the same props and the same overall
structure: shared animation values, a measured-once ref, a mounted ref, a
layout callback, a hide routine, and a mount effect that registers the
close handle, triggers the entrance animation and arms the auto-hide
timer.  They are embedded as one state machine whose behaviour branches
on the variant where the sources differ.  Every setTimeout and every
reanimated completion callback of the sources is a Timer below; assigning
a shared value targets it, which is what the model records.
-/

/-- Style override values accepted by forceStyle
(part_002, NotificationOptions). -/
inductive NotifStyle where
  | dynamicIsland
  | notch
  | toast
deriving DecidableEq, Repr

/-- The provider's mapping from a forced style to the device type used to
choose the variant component (part_002, the switch statements in
NotificationProvider, show and showCustom). -/
def styleToDeviceType : NotifStyle → DeviceType
  | .dynamicIsland => .dynamicIsland
  | .notch => .notch
  | .toast => .standard

/-- The option bag consumed by the arbiter and forwarded as props
(part_002, NotificationOptions).  Only the fields the claims exercise are
kept; delays are milliseconds. -/
structure NotificationOptions where
  autoHideDelay : Option Nat := none
  disableAutoHide : Bool := false
  forceStyle : Option NotifStyle := none
  showShadow : Option Bool := none
deriving DecidableEq, Repr

/-- Default auto-hide delay, 3000 ms in all three components
(DEFAULT_AUTO_HIDE_DELAY). -/
def DEFAULT_AUTO_HIDE_DELAY : Nat := 3000

/-- Fixed animation window, 350 ms in all three components
(ANIMATION_DURATION). -/
def ANIMATION_DURATION : Nat := 350

/-- The delay actually passed to the auto-hide setTimeout:
the source computes autoHideDelay || DEFAULT_AUTO_HIDE_DELAY, so an
absent and a zero delay both fall back to the default. -/
def effectiveAutoHideDelay : Option Nat → Nat
  | some d => if d = 0 then DEFAULT_AUTO_HIDE_DELAY else d
  | none => DEFAULT_AUTO_HIDE_DELAY

/-- Approximate notch height (NotchNotification.tsx, NOTCH_HEIGHT); the
iOS value, as the notch variant targets iPhones. -/
def NOTCH_HEIGHT : ℚ := 44

/-- Content padding above the content in the notch variant
(NotchNotification.tsx, CONTENT_PADDING_TOP = NOTCH_HEIGHT + 5). -/
def NOTCH_CONTENT_PADDING_TOP : ℚ := NOTCH_HEIGHT + 5

/-- Content padding below the content in the notch variant
(NotchNotification.tsx, CONTENT_PADDING_BOTTOM). -/
def NOTCH_CONTENT_PADDING_BOTTOM : ℚ := 10

/-- Content padding above the content in the island variant
(part_002, CONTENT_PADDING_TOP). -/
def ISLAND_CONTENT_PADDING_TOP : ℚ := 25

/-- Content padding below the content in the island variant
(part_002, CONTENT_PADDING_BOTTOM). -/
def ISLAND_CONTENT_PADDING_BOTTOM : ℚ := 12

/-- Base collapsed and expanded pill widths of the island variant
(part_002). -/
def BASE_DYNAMIC_ISLAND_MAX_WIDTH : ℚ := 350

/-- Scheduled callbacks of the variant animators.  textAppear and
toastAppear come from the mount effects, autoHide is the auto-hide timer,
stepA, stepB and stepC are the nested setTimeouts of the pill variants'
hideNotification, and slideDone is the withTiming completion callback on
the toast's slideDown value. -/
inductive TimerAct where
  | textAppear
  | toastAppear
  | autoHide
  | stepA
  | stepB
  | stepC
  | slideDone
deriving DecidableEq, Repr

/-- A pending timer: absolute fire time in ms and the callback it runs. -/
structure Timer where
  fireAt : Nat
  act : TimerAct
deriving DecidableEq, Repr

/-- State of one variant animator instance: the props fixed at mount, the
refs (isMounted, measuredOnce, currentHeight), the shared animation
values (recorded as their most recently assigned targets), the observable
count of onHide invocations, the pending timers and the instance clock. -/
structure VarState where
  variant : DeviceType
  windowWidth : ℚ
  windowHeight : ℚ
  deviceConfig : DeviceAnimationConfig
  opts : NotificationOptions
  isMounted : Bool
  measuredOnce : Bool
  contentW : ℚ
  contentH : ℚ
  currentHeight : ℚ
  expansion : ℚ
  textOpacity : ℚ
  textScale : ℚ
  slideDown : ℚ
  opacity : ℚ
  scaleValue : ℚ
  completelyHidden : Bool
  onHideCount : Nat
  timers : List Timer
  now : Nat
deriving DecidableEq, Repr

/-- Top content padding per variant (the toast has none of this kind). -/
def contentPadTop (s : VarState) : ℚ :=
  match s.variant with
  | .notch => NOTCH_CONTENT_PADDING_TOP
  | .dynamicIsland => ISLAND_CONTENT_PADDING_TOP
  | .standard => 0

/-- Bottom content padding per variant. -/
def contentPadBottom (s : VarState) : ℚ :=
  match s.variant with
  | .notch => NOTCH_CONTENT_PADDING_BOTTOM
  | .dynamicIsland => ISLAND_CONTENT_PADDING_BOTTOM
  | .standard => 0

/-- Maximum expanded width per variant, recomputed on each render from the
window width and the current device configuration (notchMaxWidth,
dynamicIslandMaxWidth, and the toast's width style). -/
def maxWidthOf (s : VarState) : ℚ :=
  match s.variant with
  | .notch => min (s.windowWidth * s.deviceConfig.maxWidthRatio)
      (s.windowWidth * (95/100))
  | .dynamicIsland => min BASE_DYNAMIC_ISLAND_MAX_WIDTH
      (s.windowWidth * s.deviceConfig.maxWidthRatio)
  | .standard => s.windowWidth * s.deviceConfig.maxWidthRatio

/-- Initial device configuration of each component, the useState
initializer run before the asynchronous device lookup resolves.  The
island component passes no explicit type (part_002 line 95), the other
two pass their own class. -/
def initialDeviceConfig : DeviceType → DeviceAnimationConfig
  | .notch => getDeviceAnimationConfig none (some .notch)
  | .standard => getDeviceAnimationConfig none (some .standard)
  | .dynamicIsland => getDeviceAnimationConfig none none

/-- The auto-hide timer armed by the mount effect, absent when
disableAutoHide is set. -/
def autoHideTimers (opts : NotificationOptions) : List Timer :=
  if opts.disableAutoHide then []
  else [⟨effectiveAutoHideDelay opts.autoHideDelay, .autoHide⟩]

/-- A freshly mounted variant animator instance: useSharedValue and
useState initializers followed by the mount effect (set initial targets,
register the close handle, start the entrance animation, schedule the
text / toast appearance and arm the auto-hide timer).  The instance clock
starts at 0. -/
def mountVar (variant : DeviceType) (wW wH : ℚ)
    (opts : NotificationOptions) : VarState :=
  let cfg := initialDeviceConfig variant
  match variant with
  | .standard =>
    { variant := variant, windowWidth := wW, windowHeight := wH,
      deviceConfig := cfg, opts := opts,
      isMounted := true, measuredOnce := false,
      contentW := wW * cfg.maxWidthRatio, contentH := 0,
      currentHeight := cfg.expandedHeight,
      expansion := 0, textOpacity := 0, textScale := 1,
      slideDown := 0, opacity := 0, scaleValue := 9/10,
      completelyHidden := true,
      onHideCount := 0,
      timers := [⟨50, .toastAppear⟩] ++ autoHideTimers opts, now := 0 }
  | v =>
    { variant := v, windowWidth := wW, windowHeight := wH,
      deviceConfig := cfg, opts := opts,
      isMounted := true, measuredOnce := false,
      contentW := match v with
        | .dynamicIsland => BASE_DYNAMIC_ISLAND_MAX_WIDTH
        | _ => wW * cfg.maxWidthRatio,
      contentH := cfg.expandedHeight,
      currentHeight := cfg.expandedHeight,
      expansion := 1, textOpacity := 0, textScale := 9/10,
      slideDown := 0, opacity := 0, scaleValue := 9/10,
      completelyHidden := false,
      onHideCount := 0,
      timers := [⟨ANIMATION_DURATION / 2, .textAppear⟩] ++ autoHideTimers opts,
      now := 0 }

/-- The toast's slideDown completion callback (part_001, the closure
passed to withTiming inside hideNotification): guarded by the mounted
ref, it commits the completely-hidden flag and invokes onHide.  The
source ignores the finished argument, so the callback acts the same when
the animation is cancelled. -/
def slideDoneAct (s : VarState) : VarState :=
  if s.isMounted then
    { s with completelyHidden := true, onHideCount := s.onHideCount + 1 }
  else s

/-- Iterated application of the slideDown completion callback, used when
several pending callbacks are cancelled at once. -/
def iterateSlideDone : Nat → VarState → VarState
  | 0, s => s
  | n + 1, s => slideDoneAct (iterateSlideDone n s)

/-- Replacing the animation on the toast's slideDown value cancels any
running one, and reanimated then invokes the cancelled animation's
completion callback; the pending slideDone timers are removed and their
callback body runs immediately. -/
def cancelSlideCallbacks (s : VarState) : VarState :=
  let n := s.timers.countP (fun t => t.act == .slideDone)
  iterateSlideDone n
    { s with timers := s.timers.filter (fun t => !(t.act == .slideDone)) }

/-- One invocation of the hide routine hideNotification.  The pill
variants fade the text and schedule the first nested timeout of the
collapse chain; the toast retargets opacity and scale, then replaces the
animation on slideDown (cancelling and thereby invoking any pending
completion callback) and installs the new completion callback.  Neither
source guards this routine against re-entry. -/
def hideBody (s : VarState) : VarState :=
  match s.variant with
  | .standard =>
    let s1 := { s with opacity := 0, scaleValue := 9/10 }
    let s2 := cancelSlideCallbacks s1
    { s2 with
      slideDown := 0
      timers := s2.timers ++ [⟨s2.now + ANIMATION_DURATION, .slideDone⟩] }
  | _ =>
    { s with
      textOpacity := 0
      textScale := 9/10
      timers := s.timers ++ [⟨s.now + ANIMATION_DURATION / 2, .stepA⟩] }

/-- Execution of one fired timer callback, straight from the sources:
the guarded text appearance, the toast appearance (which retargets
slideDown and therefore cancels pending completion callbacks), the
auto-hide trigger, the pill collapse chain — stepA collapses the pill
with no mounted guard, stepB is guarded and schedules the onHide
dispatch, stepC dispatches onHide unconditionally — and the toast's
completion callback. -/
def runTimerAct (s : VarState) : TimerAct → VarState
  | .textAppear =>
    if s.isMounted then { s with textOpacity := 1, textScale := 1 } else s
  | .toastAppear =>
    if s.isMounted then
      let s1 := cancelSlideCallbacks { s with completelyHidden := false }
      { s1 with slideDown := 1, opacity := 1, scaleValue := 1 }
    else s
  | .autoHide => hideBody s
  | .stepA =>
    { s with
      expansion := 0
      timers := s.timers ++ [⟨s.now + (ANIMATION_DURATION - 50), .stepB⟩] }
  | .stepB =>
    if s.isMounted then
      { s with
        completelyHidden := true
        timers := s.timers ++ [⟨s.now + 50, .stepC⟩] }
    else s
  | .stepC => { s with onHideCount := s.onHideCount + 1 }
  | .slideDone => slideDoneAct s

/-- The earliest pending timer and the remaining queue; ties go to the
earlier-scheduled timer, matching the FIFO order of the JavaScript event
loop. -/
def popEarliest : List Timer → Option (Timer × List Timer)
  | [] => none
  | t :: ts =>
    match popEarliest ts with
    | none => some (t, [])
    | some (u, rest) =>
      if t.fireAt ≤ u.fireAt then some (t, ts) else some (u, t :: rest)

/-- The layout callback onContentLayout.  The toast returns early once
unmounted or already measured and otherwise commits both dimensions once.
The pill variants return early only when unmounted: they recompute the
height target from every layout event (clamped below by the profile's
expanded height) and use the measured width at most once — a later event
resets the width target to the maximum width. -/
def onContentLayout (s : VarState) (w h : ℚ) : VarState :=
  match s.variant with
  | .standard =>
    if ¬ s.isMounted ∨ s.measuredOnce then s
    else
      { s with
        contentW := s.windowWidth * s.deviceConfig.maxWidthRatio
        contentH := h
        measuredOnce := true }
  | _ =>
    if ¬ s.isMounted then s
    else
      let newHeight := max (h + contentPadTop s + contentPadBottom s)
        s.deviceConfig.expandedHeight
      let newWidth :=
        if s.measuredOnce then maxWidthOf s else min (w + 40) (maxWidthOf s)
      { s with
        currentHeight := newHeight
        measuredOnce := true
        contentW := newWidth
        contentH := newHeight }

/-- Unmount cleanup (the function returned by the mount effect): flip the
mounted ref and clear the auto-hide timeout — and only that one; the
nested hide-chain timeouts are not cleared. -/
def unmountVar (s : VarState) : VarState :=
  { s with
    isMounted := false
    timers := s.timers.filter (fun t => !(t.act == .autoHide)) }

/-- External events an instance can receive: a layout pass, a hide
trigger (a press on the Pressable, an imperative call of the registered
close handle, or the arbiter's hide), the unmount cleanup, the firing of
the earliest pending timer, and the completion of the asynchronous device
lookup. -/
inductive VarCmd where
  | layout (w h : ℚ)
  | press
  | unmount
  | advance
  | cfgLoaded (deviceId : Option String)
deriving DecidableEq, Repr

/-- One step of a variant animator instance. -/
def execV (s : VarState) : VarCmd → VarState
  | .layout w h => onContentLayout s w h
  | .press => hideBody s
  | .unmount => unmountVar s
  | .cfgLoaded id =>
    if s.isMounted then
      { s with
        deviceConfig := getDeviceAnimationConfig id
          (match s.variant with
            | .notch => some .notch
            | .standard => some .standard
            | .dynamicIsland => none) }
    else s
  | .advance =>
    match popEarliest s.timers with
    | none => s
    | some (t, rest) => runTimerAct { s with timers := rest, now := t.fireAt } t.act

/-- A run of an instance over a list of events. -/
def runV (s : VarState) (cmds : List VarCmd) : VarState := cmds.foldl execV s

/-!
Presentation arbiter.  NotificationProvider (part_002) owns the single
active slot: the visible flag, the device-type state, the options bag,
the close-handle reference, and the status-bar store write.  Mounted
animator instances are kept in a list; the index of the currently
rendered one is the active slot, and the close-handle reference holds the
index of the instance whose hideNotification was last registered through
setClose.  React's commit is modelled atomically: a state update, the
resulting unmount cleanup / mount effect, and the status-bar effect
happen in one step, which matches the cooperative single-threaded event
loop (no caller can observe a half-committed render).  Each instance
keeps its own clock; the specification leaves cross-instance timer
ordering unspecified. -/

/-- Arbiter state (NotificationProvider).  lastDetected is a ghost field
recording the classification of the most recent device lookup, used to
state claims that compare against the last-detected class; the source
keeps only deviceType. -/
structure ProvState where
  windowWidth : ℚ
  windowHeight : ℚ
  provForceStyle : Option NotifStyle
  visible : Bool
  deviceType : DeviceType
  lastDetected : Option DeviceType
  statusBarHidden : Bool
  curOptions : NotificationOptions
  instances : List VarState
  activeIdx : Option Nat
  closeRefIdx : Option Nat
deriving DecidableEq, Repr

/-- Initial provider state: nothing visible, standard device type, status
bar shown, no instance mounted, no close handle registered. -/
def pinit (wW wH : ℚ) (pfs : Option NotifStyle) : ProvState :=
  { windowWidth := wW, windowHeight := wH, provForceStyle := pfs,
    visible := false, deviceType := .standard, lastDetected := none,
    statusBarHidden := false, curOptions := {}, instances := [],
    activeIdx := none, closeRefIdx := none }

/-- The currently rendered instance, with its index. -/
def activeInst (s : ProvState) : Option (Nat × VarState) :=
  match s.activeIdx with
  | some i => (s.instances.get? i).map (fun v => (i, v))
  | none => none

/-- The variant of the currently rendered instance. -/
def activeVariantOf (s : ProvState) : Option DeviceType :=
  (activeInst s).map (fun p => p.2.variant)

/-- The status-bar store effect (part_002, the useEffect on visible and
deviceType): the hidden flag is set exactly when a notification is
visible and the device type is dynamic island or notch. -/
def statusEffect (s : ProvState) : ProvState :=
  { s with
    statusBarHidden :=
      s.visible && (s.deviceType == .dynamicIsland || s.deviceType == .notch) }

/-- Mounting the variant component selected by the current device type:
a fresh instance is created with the current options, becomes the active
slot, and its mount effect registers its hideNotification through
setClose, overwriting the close-handle reference. -/
def mountActive (s : ProvState) : ProvState :=
  let inst := mountVar s.deviceType s.windowWidth s.windowHeight s.curOptions
  let idx := s.instances.length
  { s with
    instances := s.instances ++ [inst]
    activeIdx := some idx
    closeRefIdx := some idx }

/-- React reconciliation after a provider state change, followed by the
status-bar effect.  When visible, renderNotification mounts the component
for the current device type: if the active instance already is that
component it is kept (its mount effect does not re-run), otherwise it is
unmounted and a fresh instance mounts.  When not visible, the active
instance unmounts.  The close-handle reference is never cleared on
unmount — it goes stale until the next mount overwrites it, exactly as in
the source. -/
def reconcile (s : ProvState) : ProvState :=
  let s1 :=
    if s.visible then
      match activeInst s with
      | some (i, inst) =>
        if inst.variant = s.deviceType then s
        else
          mountActive
            { s with instances := s.instances.set i (unmountVar inst) }
      | none => mountActive s
    else
      match activeInst s with
      | some (i, inst) =>
        { s with
          instances := s.instances.set i (unmountVar inst)
          activeIdx := none }
      | none => s
  statusEffect s1

/-- Apply a function to instance i, leaving everything else alone. -/
def modifyInst (s : ProvState) (i : Nat) (f : VarState → VarState) : ProvState :=
  match s.instances.get? i with
  | some v => { s with instances := s.instances.set i (f v) }
  | none => s

/-- The device type a show call resolves: the forced style when present,
otherwise the provider's current device-type state. -/
def showResolvedType (s : ProvState) (opts : NotificationOptions) : DeviceType :=
  match opts.forceStyle with
  | some st => styleToDeviceType st
  | none => s.deviceType

/-- Events the arbiter can receive: the asynchronous device lookup
resolving, a show call (success, failed and toaster all route here, and
showCustom behaves identically for what is modelled), the caller-facing
hide, an invocation of a captured close handle (possibly stale), a timer
firing inside an instance, and a layout pass on an instance. -/
inductive PCmd where
  | detect (deviceId : Option String)
  | showNotif (opts : NotificationOptions)
  | hide
  | invokeHandle (i : Nat)
  | advanceInst (i : Nat)
  | layoutInst (i : Nat) (w h : ℚ)
deriving DecidableEq, Repr

/-- One step of the arbiter.  detect resolves the device type (the
provider-level forceStyle prop wins over classification); showNotif
stores the options, applies a per-call forced style to the device-type
state — which persists for later calls — and makes the slot visible; hide
invokes the registered close handle when there is one and otherwise just
clears the visible flag; invokeHandle runs a captured hideNotification
against its own instance; advanceInst fires the earliest timer of an
instance, and when that invokes the instance's onHide prop the provider
clears the visible flag (unmounting whatever is active). -/
def pexec (s : ProvState) : PCmd → ProvState
  | .detect id =>
    let dt := match s.provForceStyle with
      | some st => styleToDeviceType st
      | none => detectDeviceType id
    reconcile
      { s with deviceType := dt, lastDetected := some (detectDeviceType id) }
  | .showNotif opts =>
    let s1 := { s with curOptions := opts }
    let s2 := match opts.forceStyle with
      | some st => { s1 with deviceType := styleToDeviceType st }
      | none => s1
    reconcile { s2 with visible := true }
  | .hide =>
    match s.closeRefIdx with
    | some i => modifyInst s i hideBody
    | none => reconcile { s with visible := false }
  | .invokeHandle i => modifyInst s i hideBody
  | .layoutInst i w h => modifyInst s i (fun v => onContentLayout v w h)
  | .advanceInst i =>
    match s.instances.get? i with
    | some v =>
      let v2 := execV v .advance
      let s2 := { s with instances := s.instances.set i v2 }
      if v.onHideCount < v2.onHideCount then
        reconcile { s2 with visible := false }
      else s2
    | none => s

/-- A run of the arbiter over a list of events. -/
def prun (s : ProvState) (cmds : List PCmd) : ProvState := cmds.foldl pexec s

/-- Default of the showShadow prop in each component's destructuring:
true in ToastNotification (part_001), false in NotchNotification and in
DynamicIslandNotification. -/
def defaultShowShadow : DeviceType → Bool
  | .standard => true
  | .notch => false
  | .dynamicIsland => false

/-- The showShadow value a variant actually uses: the caller's value when
supplied, else the variant's destructuring default.  The shadow style
object is applied exactly when this is true (showShadow ? {...} : {}). -/
def resolvedShowShadow (v : DeviceType) (p : Option Bool) : Bool :=
  p.getD (defaultShowShadow v)

/-- Timer callbacks that belong to a hide chain: the auto-hide trigger,
the three nested pill timeouts and the toast completion callback.  Each
hide trigger creates at most one of these, and firing one creates at most
one more; they bound the number of onHide invocations. -/
def chainAct : TimerAct → Bool
  | .autoHide | .stepA | .stepB | .stepC | .slideDone => true
  | _ => false

/-- Chain-timer test on a pending timer. -/
def chainTimer (t : Timer) : Bool := chainAct t.act

/-- Upper bound on future onHide invocations: those already performed
plus the pending chain timers. -/
def hidePotential (s : VarState) : Nat :=
  s.onHideCount + s.timers.countP chainTimer

/-- The pending onHide dispatches (pill stepC timers); the only
unguarded path to an onHide invocation. -/
def isStepC (t : Timer) : Bool := t.act == .stepC

/-- Equality of the arbiter-owned fields of two provider states; used to
state that an event leaves the arbiter itself untouched. -/
def provFieldsEq (a b : ProvState) : Prop :=
  a.visible = b.visible ∧ a.deviceType = b.deviceType ∧
  a.statusBarHidden = b.statusBarHidden ∧ a.activeIdx = b.activeIdx ∧
  a.closeRefIdx = b.closeRefIdx ∧ a.lastDetected = b.lastDetected

/-- A concrete arbiter run used to exhibit a superseded instance: the
device lookup classifies a dynamic-island device and a first show mounts
the island instance. -/
def staleScenarioBefore : ProvState :=
  prun (pinit 390 844 none) [.detect (some "iPhone14,2"), .showNotif {}]

/-- The same run after a second show forcing the notch style, which
replaces the island instance: instance 0 is now superseded. -/
def staleScenarioAfter : ProvState :=
  pexec staleScenarioBefore (.showNotif { forceStyle := some .notch })

/-- The superseded island instance of the stale-handle scenario. -/
def staleOldInst : VarState := unmountVar (mountVar .dynamicIsland 390 844 {})

/-!
Helper lemmas about the timer queue and the instance machine.
-/

theorem popEarliest_eq_none {ts : List Timer} (h : popEarliest ts = none) :
    ts = [] := by
  cases ts with
  | nil => rfl
  | cons t ts =>
    exfalso
    simp only [popEarliest] at h
    cases hp : popEarliest ts with
    | none => rw [hp] at h; exact Option.noConfusion h
    | some p =>
      rcases p with ⟨u, rest⟩
      rw [hp] at h
      by_cases hle : t.fireAt ≤ u.fireAt <;> simp [hle] at h

theorem popEarliest_perm :
    ∀ {ts : List Timer} {t : Timer} {rest : List Timer},
      popEarliest ts = some (t, rest) → ts.Perm (t :: rest) := by
  intro ts
  induction ts with
  | nil => intro t rest h; exact Option.noConfusion h
  | cons a as ih =>
    intro t rest h
    simp only [popEarliest] at h
    cases hp : popEarliest as with
    | none =>
      have hnil : as = [] := popEarliest_eq_none hp
      rw [hp] at h
      dsimp only at h
      cases h
      subst hnil
      exact List.Perm.refl _
    | some p =>
      rcases p with ⟨u, rest0⟩
      rw [hp] at h
      dsimp only at h
      by_cases hle : a.fireAt ≤ u.fireAt
      · rw [if_pos hle] at h
        cases h
        exact List.Perm.refl _
      · rw [if_neg hle] at h
        cases h
        have hperm := ih hp
        exact ((hperm.cons a).trans (List.Perm.swap _ _ _))

theorem popEarliest_countP (p : Timer → Bool) {ts : List Timer} {t : Timer}
    {rest : List Timer} (h : popEarliest ts = some (t, rest)) :
    ts.countP p = rest.countP p + if p t then 1 else 0 := by
  have := (popEarliest_perm h).countP_eq p
  rw [this, List.countP_cons]

theorem popEarliest_mem {ts : List Timer} {t : Timer} {rest : List Timer}
    (h : popEarliest ts = some (t, rest)) : t ∈ ts :=
  (popEarliest_perm h).mem_iff.mpr (List.mem_cons_self t rest)

theorem countP_filter_le_self (p q : Timer → Bool) (l : List Timer) :
    (l.filter q).countP p ≤ l.countP p := by
  induction l with
  | nil => exact Nat.le_refl _
  | cons t l ih =>
    by_cases hq : q t <;> by_cases hp : p t <;>
      simp [List.filter_cons, List.countP_cons, hq, hp] <;> omega

theorem countChain_split (ts : List Timer) :
    ts.countP chainTimer =
      (ts.filter (fun t => !(t.act == .slideDone))).countP chainTimer
        + ts.countP (fun t => t.act == .slideDone) := by
  induction ts with
  | nil => rfl
  | cons t ts ih =>
    by_cases hs : t.act = .slideDone
    · have hc : chainTimer t = true := by
        simp [chainTimer, hs, chainAct]
      simp [List.filter_cons, List.countP_cons, hs, hc, ih]
      omega
    · simp [List.filter_cons, List.countP_cons, hs, ih]
      omega

theorem countP_filter_not_self (p : Timer → Bool) (l : List Timer) :
    (l.filter (fun t => !(p t))).countP p = 0 := by
  induction l with
  | nil => rfl
  | cons t ts ih =>
    by_cases h : p t <;>
      simp [List.filter_cons, h, List.countP_cons, ih]

theorem countC_filter_not_slide (ts : List Timer) :
    (ts.filter (fun t => !(t.act == .slideDone))).countP isStepC
      = ts.countP isStepC := by
  induction ts with
  | nil => rfl
  | cons t ts ih =>
    by_cases hs : t.act = .slideDone
    · have hc : isStepC t = false := by simp [isStepC, hs]
      simp [List.filter_cons, List.countP_cons, hs, hc, ih]
    · simp [List.filter_cons, List.countP_cons, hs, ih]

theorem slideDoneAct_facts (s : VarState) :
    (slideDoneAct s).variant = s.variant ∧
    (slideDoneAct s).isMounted = s.isMounted ∧
    (slideDoneAct s).measuredOnce = s.measuredOnce ∧
    (slideDoneAct s).contentW = s.contentW ∧
    (slideDoneAct s).contentH = s.contentH ∧
    (slideDoneAct s).timers = s.timers ∧
    (slideDoneAct s).onHideCount ≤ s.onHideCount + 1 := by
  unfold slideDoneAct
  split <;> simp

theorem slideDoneAct_unmounted {s : VarState} (h : s.isMounted = false) :
    slideDoneAct s = s := by
  unfold slideDoneAct
  rw [h]
  simp

theorem iterateSlideDone_facts (n : Nat) (s : VarState) :
    (iterateSlideDone n s).variant = s.variant ∧
    (iterateSlideDone n s).isMounted = s.isMounted ∧
    (iterateSlideDone n s).measuredOnce = s.measuredOnce ∧
    (iterateSlideDone n s).contentW = s.contentW ∧
    (iterateSlideDone n s).contentH = s.contentH ∧
    (iterateSlideDone n s).timers = s.timers ∧
    (iterateSlideDone n s).onHideCount ≤ s.onHideCount + n := by
  induction n with
  | zero =>
    simp [iterateSlideDone]
  | succ n ih =>
    obtain ⟨h1, h2, h3, h4, h5, h6, h7⟩ := ih
    obtain ⟨g1, g2, g3, g4, g5, g6, g7⟩ := slideDoneAct_facts (iterateSlideDone n s)
    refine ⟨g1.trans h1, g2.trans h2, g3.trans h3, g4.trans h4, g5.trans h5,
      g6.trans h6, ?_⟩
    show (slideDoneAct (iterateSlideDone n s)).onHideCount ≤ s.onHideCount + (n + 1)
    omega

theorem iterateSlideDone_unmounted {s : VarState} (h : s.isMounted = false) :
    ∀ n, iterateSlideDone n s = s := by
  intro n
  induction n with
  | zero => rfl
  | succ n ih =>
    show slideDoneAct (iterateSlideDone n s) = s
    rw [ih, slideDoneAct_unmounted h]

theorem cancelSlideCallbacks_facts (s : VarState) :
    (cancelSlideCallbacks s).variant = s.variant ∧
    (cancelSlideCallbacks s).isMounted = s.isMounted ∧
    (cancelSlideCallbacks s).measuredOnce = s.measuredOnce ∧
    (cancelSlideCallbacks s).contentW = s.contentW ∧
    (cancelSlideCallbacks s).contentH = s.contentH ∧
    (cancelSlideCallbacks s).timers
      = s.timers.filter (fun t => !(t.act == .slideDone)) ∧
    hidePotential (cancelSlideCallbacks s) ≤ hidePotential s := by
  unfold cancelSlideCallbacks
  obtain ⟨h1, h2, h3, h4, h5, h6, h7⟩ := iterateSlideDone_facts
    (s.timers.countP (fun t => t.act == .slideDone))
    { s with timers := s.timers.filter (fun t => !(t.act == .slideDone)) }
  refine ⟨h1, h2, h3, h4, h5, h6, ?_⟩
  have hsplit := countChain_split s.timers
  simp only [hidePotential, h6] at *
  omega

theorem cancelSlideCallbacks_unmounted {s : VarState} (h : s.isMounted = false) :
    cancelSlideCallbacks s
      = { s with timers := s.timers.filter (fun t => !(t.act == .slideDone)) } := by
  unfold cancelSlideCallbacks
  exact @iterateSlideDone_unmounted
    { s with timers := s.timers.filter (fun t => !(t.act == .slideDone)) } h _

theorem hideBody_facts (s : VarState) :
    (hideBody s).variant = s.variant ∧
    (hideBody s).isMounted = s.isMounted ∧
    (hideBody s).measuredOnce = s.measuredOnce ∧
    (hideBody s).contentW = s.contentW ∧
    (hideBody s).contentH = s.contentH ∧
    hidePotential (hideBody s) ≤ hidePotential s + 1 := by
  unfold hideBody
  split
  · obtain ⟨h1, h2, h3, h4, h5, h6, h7⟩ := cancelSlideCallbacks_facts
      { s with opacity := 0, scaleValue := 9/10 }
    refine ⟨h1, h2, h3, h4, h5, ?_⟩
    simp only [hidePotential, List.countP_append, List.countP_cons,
      List.countP_nil, chainTimer, chainAct] at h7 ⊢
    simp at h7 ⊢
    omega
  · refine ⟨rfl, rfl, rfl, rfl, rfl, ?_⟩
    simp [hidePotential, List.countP_append, List.countP_cons, chainTimer,
      chainAct]
    omega

theorem runTimerAct_potential (s : VarState) (a : TimerAct) :
    hidePotential (runTimerAct s a)
      ≤ hidePotential s + if chainAct a then 1 else 0 := by
  cases a with
  | textAppear =>
    by_cases hm : s.isMounted = true <;>
      simp [runTimerAct, hidePotential, chainAct, hm]
  | toastAppear =>
    by_cases hm : s.isMounted = true
    · obtain ⟨h1, h2, h3, h4, h5, h6, h7⟩ := cancelSlideCallbacks_facts
        { s with completelyHidden := false }
      simp only [runTimerAct, if_pos hm, chainAct]
      simp only [hidePotential] at h7 ⊢
      simp at h7 ⊢
      omega
    · simp [runTimerAct, hidePotential, chainAct, hm]
  | autoHide =>
    have h := (hideBody_facts s).2.2.2.2.2
    simpa [runTimerAct, chainAct] using h
  | stepA =>
    simp [runTimerAct, hidePotential, chainAct, List.countP_append,
      List.countP_cons, chainTimer]
    omega
  | stepB =>
    by_cases hm : s.isMounted = true <;>
      simp [runTimerAct, hidePotential, chainAct, hm, List.countP_append,
        List.countP_cons, chainTimer] <;>
      omega
  | stepC =>
    simp [runTimerAct, hidePotential, chainAct]
    omega
  | slideDone =>
    obtain ⟨h1, h2, h3, h4, h5, h6, h7⟩ := slideDoneAct_facts s
    simp only [runTimerAct, chainAct, hidePotential, h6]
    simp
    omega

theorem onContentLayout_facts (s : VarState) (w h : ℚ) :
    (onContentLayout s w h).variant = s.variant ∧
    (onContentLayout s w h).isMounted = s.isMounted ∧
    (onContentLayout s w h).onHideCount = s.onHideCount ∧
    (onContentLayout s w h).completelyHidden = s.completelyHidden ∧
    (onContentLayout s w h).timers = s.timers := by
  unfold onContentLayout
  split <;> split <;> simp

theorem hideBody_unmounted {s : VarState} (hm : s.isMounted = false) :
    (hideBody s).isMounted = false ∧
    (hideBody s).onHideCount = s.onHideCount ∧
    (hideBody s).completelyHidden = s.completelyHidden ∧
    (hideBody s).timers.countP isStepC = s.timers.countP isStepC := by
  unfold hideBody
  split
  · dsimp only
    rw [@cancelSlideCallbacks_unmounted
      { s with opacity := 0, scaleValue := 9/10 } hm]
    refine ⟨hm, rfl, rfl, ?_⟩
    simp [List.countP_append, List.countP_cons, isStepC]
    exact countC_filter_not_slide s.timers
  · refine ⟨hm, rfl, rfl, ?_⟩
    simp [List.countP_append, List.countP_cons, isStepC]

theorem runTimerAct_unmounted {s : VarState} (a : TimerAct)
    (hm : s.isMounted = false) (hno : a ≠ .stepC) :
    (runTimerAct s a).isMounted = false ∧
    (runTimerAct s a).onHideCount = s.onHideCount ∧
    (runTimerAct s a).completelyHidden = s.completelyHidden ∧
    (runTimerAct s a).timers.countP isStepC = s.timers.countP isStepC := by
  cases a with
  | textAppear => simp [runTimerAct, hm]
  | toastAppear => simp [runTimerAct, hm]
  | autoHide => exact hideBody_unmounted hm
  | stepA => simp [runTimerAct, hm, List.countP_append, List.countP_cons, isStepC]
  | stepB => simp [runTimerAct, hm]
  | stepC => exact absurd rfl hno
  | slideDone =>
    simp only [runTimerAct]
    rw [slideDoneAct_unmounted hm]
    exact ⟨hm, rfl, rfl, rfl⟩

theorem runTimerAct_frame (s : VarState) (a : TimerAct) :
    (runTimerAct s a).variant = s.variant ∧
    (runTimerAct s a).measuredOnce = s.measuredOnce ∧
    (runTimerAct s a).contentW = s.contentW ∧
    (runTimerAct s a).contentH = s.contentH := by
  cases a with
  | textAppear => by_cases hm : s.isMounted = true <;> simp [runTimerAct, hm]
  | toastAppear =>
    by_cases hm : s.isMounted = true
    · obtain ⟨h1, h2, h3, h4, h5, h6, h7⟩ := cancelSlideCallbacks_facts
        { s with completelyHidden := false }
      simp only [runTimerAct, if_pos hm]
      exact ⟨h1, h3, h4, h5⟩
    · simp [runTimerAct, hm]
  | autoHide =>
    obtain ⟨h1, h2, h3, h4, h5, h6⟩ := hideBody_facts s
    exact ⟨h1, h3, h4, h5⟩
  | stepA => simp [runTimerAct]
  | stepB => by_cases hm : s.isMounted = true <;> simp [runTimerAct, hm]
  | stepC => simp [runTimerAct]
  | slideDone =>
    obtain ⟨h1, h2, h3, h4, h5, h6, h7⟩ := slideDoneAct_facts s
    exact ⟨h1, h3, h4, h5⟩

theorem execV_potential (s : VarState) (c : VarCmd) :
    hidePotential (execV s c)
      ≤ hidePotential s + if c == VarCmd.press then 1 else 0 := by
  cases c with
  | layout w h =>
    obtain ⟨f1, f2, f3, f4, f5⟩ := onContentLayout_facts s w h
    show hidePotential (onContentLayout s w h) ≤ _
    simp only [hidePotential, f3, f5]
    simp
  | press =>
    have h := (hideBody_facts s).2.2.2.2.2
    simpa [execV] using h
  | unmount =>
    have h := countP_filter_le_self chainTimer
      (fun t => !(t.act == .autoHide)) s.timers
    show hidePotential (unmountVar s) ≤ _
    simp only [unmountVar, hidePotential]
    simp
    omega
  | cfgLoaded id =>
    by_cases hm : s.isMounted = true <;> simp [execV, hidePotential, hm]
  | advance =>
    cases hp : popEarliest s.timers with
    | none => simp [execV, hp, hidePotential]
    | some pr =>
      rcases pr with ⟨t, rest⟩
      have hcount := popEarliest_countP chainTimer hp
      have hbound := runTimerAct_potential
        { s with timers := rest, now := t.fireAt } t.act
      simp only [execV, hp]
      have hct : chainTimer t = chainAct t.act := rfl
      rw [hct] at hcount
      by_cases hch : chainAct t.act = true
      · simp only [hch, if_pos] at hbound hcount
        simp only [hidePotential] at hbound ⊢
        simp at hbound ⊢
        omega
      · simp only [hch] at hbound hcount
        simp only [hidePotential] at hbound ⊢
        simp at hbound hcount ⊢
        omega

theorem execV_unmounted (s : VarState) (c : VarCmd)
    (hm : s.isMounted = false) (hc : s.timers.countP isStepC = 0) :
    (execV s c).isMounted = false ∧
    (execV s c).timers.countP isStepC = 0 ∧
    (execV s c).onHideCount = s.onHideCount ∧
    (execV s c).completelyHidden = s.completelyHidden := by
  cases c with
  | layout w h =>
    obtain ⟨f1, f2, f3, f4, f5⟩ := onContentLayout_facts s w h
    refine ⟨f2.trans hm, ?_, f3, f4⟩
    show (onContentLayout s w h).timers.countP isStepC = 0
    rw [f5]
    exact hc
  | press =>
    obtain ⟨e1, e2, e3, e4⟩ := hideBody_unmounted hm
    exact ⟨e1, e4.trans hc, e2, e3⟩
  | unmount =>
    refine ⟨rfl, ?_, rfl, rfl⟩
    show (s.timers.filter (fun t => !(t.act == .autoHide))).countP isStepC = 0
    have := countP_filter_le_self isStepC (fun t => !(t.act == .autoHide)) s.timers
    omega
  | cfgLoaded id =>
    simp [execV, hm, hc]
  | advance =>
    cases hp : popEarliest s.timers with
    | none => simp [execV, hp, hm, hc]
    | some pr =>
      rcases pr with ⟨t, rest⟩
      have hcount := popEarliest_countP isStepC hp
      rw [hc] at hcount
      have hrest : rest.countP isStepC = 0 := by
        by_cases hi : isStepC t <;> simp [hi] at hcount <;> omega
      have hti : isStepC t = false := by
        by_cases hi : isStepC t
        · simp [hi] at hcount
        · simpa using hi
      have htc : t.act ≠ .stepC := by
        intro hcon
        simp [isStepC, hcon] at hti
      obtain ⟨e1, e2, e3, e4⟩ := runTimerAct_unmounted
        (s := { s with timers := rest, now := t.fireAt }) t.act hm htc
      simp only [execV, hp]
      exact ⟨e1, e4.trans hrest, e2, e3⟩

theorem execV_toastFrozen (s : VarState) (c : VarCmd)
    (hv : s.variant = .standard) (hm : s.measuredOnce = true) :
    (execV s c).variant = .standard ∧ (execV s c).measuredOnce = true ∧
    (execV s c).contentH = s.contentH ∧ (execV s c).contentW = s.contentW := by
  cases c with
  | layout w h =>
    have hid : onContentLayout s w h = s := by
      unfold onContentLayout
      rw [hv]
      simp [hm]
    show (onContentLayout s w h).variant = .standard ∧
      (onContentLayout s w h).measuredOnce = true ∧
      (onContentLayout s w h).contentH = s.contentH ∧
      (onContentLayout s w h).contentW = s.contentW
    rw [hid]
    exact ⟨hv, hm, rfl, rfl⟩
  | press =>
    obtain ⟨h1, h2, h3, h4, h5, h6⟩ := hideBody_facts s
    exact ⟨h1.trans hv, h3.trans hm, h5, h4⟩
  | unmount => exact ⟨hv, hm, rfl, rfl⟩
  | cfgLoaded id =>
    by_cases hmo : s.isMounted = true <;> simp [execV, hmo, hv, hm]
  | advance =>
    cases hp : popEarliest s.timers with
    | none => simp [execV, hp, hv, hm]
    | some pr =>
      rcases pr with ⟨t, rest⟩
      obtain ⟨f1, f2, f3, f4⟩ := runTimerAct_frame
        { s with timers := rest, now := t.fireAt } t.act
      simp only [execV, hp]
      exact ⟨f1.trans hv, f2.trans hm, f4, f3⟩

theorem runV_potential (s : VarState) (cmds : List VarCmd) :
    hidePotential (runV s cmds)
      ≤ hidePotential s + cmds.countP (fun c => c == VarCmd.press) := by
  induction cmds generalizing s with
  | nil => simp [runV]
  | cons c cs ih =>
    have h1 := execV_potential s c
    have h2 := ih (execV s c)
    show hidePotential (runV (execV s c) cs) ≤ _
    rw [List.countP_cons]
    by_cases hc : c == VarCmd.press <;> simp [hc] at h1 ⊢ <;> omega

theorem runV_unmounted (cmds : List VarCmd) :
    ∀ (s : VarState), s.isMounted = false → s.timers.countP isStepC = 0 →
      (runV s cmds).isMounted = false ∧
      (runV s cmds).timers.countP isStepC = 0 ∧
      (runV s cmds).onHideCount = s.onHideCount ∧
      (runV s cmds).completelyHidden = s.completelyHidden := by
  induction cmds with
  | nil => intro s hm hc; exact ⟨hm, hc, rfl, rfl⟩
  | cons c cs ih =>
    intro s hm hc
    obtain ⟨e1, e2, e3, e4⟩ := execV_unmounted s c hm hc
    obtain ⟨i1, i2, i3, i4⟩ := ih (execV s c) e1 e2
    exact ⟨i1, i2, i3.trans e3, i4.trans e4⟩

theorem runV_toastFull (cmds : List VarCmd) :
    ∀ (s : VarState), s.variant = .standard → s.measuredOnce = true →
      (runV s cmds).variant = .standard ∧
      (runV s cmds).measuredOnce = true ∧
      (runV s cmds).contentH = s.contentH ∧
      (runV s cmds).contentW = s.contentW := by
  induction cmds with
  | nil => intro s hv hm; exact ⟨hv, hm, rfl, rfl⟩
  | cons c cs ih =>
    intro s hv hm
    obtain ⟨e1, e2, e3, e4⟩ := execV_toastFrozen s c hv hm
    obtain ⟨i1, i2, i3, i4⟩ := ih (execV s c) e1 e2
    exact ⟨i1, i2, i3.trans e3, i4.trans e4⟩

/-!
Helper lemmas about the arbiter.
-/

theorem mountVar_variant (v : DeviceType) (wW wH : ℚ)
    (opts : NotificationOptions) : (mountVar v wW wH opts).variant = v := by
  cases v <;> rfl

theorem provFieldsEq_refl (s : ProvState) : provFieldsEq s s :=
  ⟨rfl, rfl, rfl, rfl, rfl, rfl⟩

theorem provFieldsEq_trans {a b c : ProvState} (h1 : provFieldsEq a b)
    (h2 : provFieldsEq b c) : provFieldsEq a c :=
  ⟨h1.1.trans h2.1, h1.2.1.trans h2.2.1, h1.2.2.1.trans h2.2.2.1,
   h1.2.2.2.1.trans h2.2.2.2.1, h1.2.2.2.2.1.trans h2.2.2.2.2.1,
   h1.2.2.2.2.2.trans h2.2.2.2.2.2⟩

theorem modifyInst_facts (s : ProvState) (i : Nat) (f : VarState → VarState) :
    provFieldsEq (modifyInst s i f) s ∧
    (∀ j, j ≠ i → (modifyInst s i f).instances.get? j = s.instances.get? j) ∧
    ((modifyInst s i f).instances.get? i = (s.instances.get? i).map f) := by
  unfold modifyInst
  cases hv : s.instances.get? i with
  | none =>
    rw [hv]
    exact ⟨provFieldsEq_refl _, fun j _ => rfl, rfl⟩
  | some v =>
    refine ⟨⟨rfl, rfl, rfl, rfl, rfl, rfl⟩, ?_, ?_⟩
    · intro j hj
      exact List.get?_set_ne _ _ (fun hij => hj hij.symm)
    · exact List.get?_set_eq_of_lt _ (List.get?_eq_some.mp hv).1

theorem mountActive_facts (s : ProvState) :
    activeVariantOf (mountActive s) = some s.deviceType ∧
    (mountActive s).activeIdx = some s.instances.length ∧
    (mountActive s).closeRefIdx = some s.instances.length ∧
    (mountActive s).instances.get? s.instances.length
      = some (mountVar s.deviceType s.windowWidth s.windowHeight s.curOptions) ∧
    (∀ j, j < s.instances.length →
      (mountActive s).instances.get? j = s.instances.get? j) ∧
    (mountActive s).visible = s.visible ∧
    (mountActive s).deviceType = s.deviceType := by
  refine ⟨?_, rfl, rfl, ?_, ?_, rfl, rfl⟩
  · unfold activeVariantOf activeInst mountActive
    simp [List.get?_concat_length, mountVar_variant]
  · exact List.get?_concat_length _ _
  · intro j hj
    exact List.get?_append hj

theorem reconcile_facts (s : ProvState) :
    (reconcile s).visible = s.visible ∧
    (reconcile s).deviceType = s.deviceType ∧
    (reconcile s).lastDetected = s.lastDetected ∧
    (reconcile s).statusBarHidden =
      (s.visible && (s.deviceType == .dynamicIsland || s.deviceType == .notch)) := by
  unfold reconcile statusEffect
  by_cases hvis : s.visible = true
  · cases ha : activeInst s with
    | none => simp [hvis, ha, mountActive]
    | some p =>
      rcases p with ⟨i, inst⟩
      by_cases hv : inst.variant = s.deviceType <;>
        simp [hvis, ha, hv, mountActive]
  · cases ha : activeInst s with
    | none => simp [hvis, ha]
    | some p =>
      rcases p with ⟨i, inst⟩
      simp [hvis, ha]

/-- The status-bar coupling invariant: the shared hidden flag equals
(visible and expanding-class). -/
def statusInv (s : ProvState) : Prop :=
  s.statusBarHidden =
    (s.visible && (s.deviceType == .dynamicIsland || s.deviceType == .notch))

theorem statusInv_reconcile (s : ProvState) : statusInv (reconcile s) := by
  obtain ⟨r1, r2, r3, r4⟩ := reconcile_facts s
  unfold statusInv
  rw [r1, r2, r4]

theorem pexec_statusInv (s : ProvState) (c : PCmd) (h : statusInv s) :
    statusInv (pexec s c) := by
  cases c with
  | detect id => exact statusInv_reconcile _
  | showNotif opts =>
    cases hf : opts.forceStyle <;> simp only [pexec, hf] <;>
      exact statusInv_reconcile _
  | hide =>
    cases hcr : s.closeRefIdx with
    | none => simp only [pexec, hcr]; exact statusInv_reconcile _
    | some i =>
      simp only [pexec, hcr]
      have hf := (modifyInst_facts s i hideBody).1
      unfold statusInv
      rw [hf.1, hf.2.1, hf.2.2.1]
      exact h
  | invokeHandle i =>
    have hf := (modifyInst_facts s i hideBody).1
    unfold statusInv
    show (modifyInst s i hideBody).statusBarHidden =
      ((modifyInst s i hideBody).visible &&
        ((modifyInst s i hideBody).deviceType == .dynamicIsland ||
          (modifyInst s i hideBody).deviceType == .notch))
    rw [hf.1, hf.2.1, hf.2.2.1]
    exact h
  | layoutInst i w hh =>
    have hf := (modifyInst_facts s i (fun v => onContentLayout v w hh)).1
    unfold statusInv
    show (modifyInst s i (fun v => onContentLayout v w hh)).statusBarHidden =
      ((modifyInst s i (fun v => onContentLayout v w hh)).visible &&
        ((modifyInst s i (fun v => onContentLayout v w hh)).deviceType
            == .dynamicIsland ||
          (modifyInst s i (fun v => onContentLayout v w hh)).deviceType
            == .notch))
    rw [hf.1, hf.2.1, hf.2.2.1]
    exact h
  | advanceInst i =>
    cases hv : s.instances.get? i with
    | none => simp only [pexec, hv]; exact h
    | some v =>
      simp only [pexec, hv]
      by_cases hlt : v.onHideCount < (execV v .advance).onHideCount
      · rw [if_pos hlt]
        exact statusInv_reconcile _
      · rw [if_neg hlt]
        exact h

theorem prun_statusInv (cmds : List PCmd) :
    ∀ (s : ProvState), statusInv s → statusInv (prun s cmds) := by
  induction cmds with
  | nil => intro s h; exact h
  | cons c cs ih => intro s h; exact ih (pexec s c) (pexec_statusInv s c h)

theorem pexec_stale_invoke (s : ProvState) (i : Nat) (v : VarState)
    (hv : s.instances.get? i = some v) (hm : v.isMounted = false) :
    provFieldsEq (pexec s (.invokeHandle i)) s ∧
    (∀ j, j ≠ i →
      (pexec s (.invokeHandle i)).instances.get? j = s.instances.get? j) ∧
    ∃ v2, (pexec s (.invokeHandle i)).instances.get? i = some v2 ∧
      v2.isMounted = false ∧ v2.onHideCount = v.onHideCount ∧
      v2.completelyHidden = v.completelyHidden ∧
      v2.timers.countP isStepC = v.timers.countP isStepC := by
  obtain ⟨f1, f2, f3⟩ := modifyInst_facts s i hideBody
  obtain ⟨e1, e2, e3, e4⟩ := hideBody_unmounted hm
  refine ⟨f1, f2, hideBody v, ?_, e1, e2, e3, e4⟩
  show (modifyInst s i hideBody).instances.get? i = some (hideBody v)
  rw [f3, hv]
  rfl

theorem pexec_stale_advance (s : ProvState) (i : Nat) (v : VarState)
    (hv : s.instances.get? i = some v) (hm : v.isMounted = false)
    (hc : v.timers.countP isStepC = 0) :
    provFieldsEq (pexec s (.advanceInst i)) s ∧
    (∀ j, j ≠ i →
      (pexec s (.advanceInst i)).instances.get? j = s.instances.get? j) ∧
    ∃ v2, (pexec s (.advanceInst i)).instances.get? i = some v2 ∧
      v2.isMounted = false ∧ v2.timers.countP isStepC = 0 ∧
      v2.onHideCount = v.onHideCount := by
  obtain ⟨e1, e2, e3, e4⟩ := execV_unmounted v .advance hm hc
  have hlt : ¬ (v.onHideCount < (execV v .advance).onHideCount) := by
    rw [e3]
    exact Nat.lt_irrefl _
  simp only [pexec, hv, if_neg hlt]
  refine ⟨⟨rfl, rfl, rfl, rfl, rfl, rfl⟩, ?_, execV v .advance, ?_, e1, e2, e3⟩
  · intro j hj
    exact List.get?_set_ne _ _ (fun hij => hj hij.symm)
  · exact List.get?_set_eq_of_lt _ (List.get?_eq_some.mp hv).1

theorem prun_stale_advances (n : Nat) :
    ∀ (s : ProvState) (i : Nat) (v : VarState),
      s.instances.get? i = some v → v.isMounted = false →
      v.timers.countP isStepC = 0 →
      provFieldsEq (prun s (List.replicate n (.advanceInst i))) s ∧
      (∀ j, j ≠ i →
        (prun s (List.replicate n (.advanceInst i))).instances.get? j
          = s.instances.get? j) ∧
      ∃ v2,
        (prun s (List.replicate n (.advanceInst i))).instances.get? i = some v2 ∧
        v2.isMounted = false ∧ v2.timers.countP isStepC = 0 ∧
        v2.onHideCount = v.onHideCount := by
  induction n with
  | zero =>
    intro s i v hv hm hc
    exact ⟨provFieldsEq_refl s, fun j _ => rfl, v, hv, hm, hc, rfl⟩
  | succ n ih =>
    intro s i v hv hm hc
    rw [List.replicate_succ]
    obtain ⟨p1, p2, v2, hv2, m2, c2, o2⟩ := pexec_stale_advance s i v hv hm hc
    obtain ⟨q1, q2, v3, hv3, m3, c3, o3⟩ :=
      ih (pexec s (.advanceInst i)) i v2 hv2 m2 c2
    refine ⟨provFieldsEq_trans q1 p1, ?_, v3, hv3, m3, c3, o3.trans o2⟩
    intro j hj
    exact (q2 j hj).trans (p2 j hj)

theorem activeInst_some {s : ProvState} {i : Nat} {v : VarState}
    (h : activeInst s = some (i, v)) :
    s.activeIdx = some i ∧ s.instances.get? i = some v := by
  unfold activeInst at h
  cases ha : s.activeIdx with
  | none => rw [ha] at h; exact Option.noConfusion h
  | some j =>
    rw [ha] at h
    dsimp only at h
    cases hg : s.instances.get? j with
    | none => rw [hg] at h; exact Option.noConfusion h
    | some u =>
      rw [hg] at h
      have h2 : some (j, u) = some (i, v) := h
      cases h2
      exact ⟨rfl, hg⟩

theorem reconcile_activeVariant {s : ProvState} (hvis : s.visible = true) :
    activeVariantOf (reconcile s) = some s.deviceType := by
  unfold reconcile
  rw [if_pos hvis]
  cases ha : activeInst s with
  | none => exact (mountActive_facts s).1
  | some p =>
    rcases p with ⟨i, inst⟩
    dsimp only
    by_cases hv : inst.variant = s.deviceType
    · rw [if_pos hv]
      show activeVariantOf s = some s.deviceType
      unfold activeVariantOf
      rw [ha]
      simpa using hv
    · rw [if_neg hv]
      exact (mountActive_facts
        { s with instances := s.instances.set i (unmountVar inst) }).1

theorem pexec_show_active (s : ProvState) (opts : NotificationOptions) :
    activeVariantOf (pexec s (.showNotif opts))
      = some (showResolvedType s opts) := by
  cases hf : opts.forceStyle with
  | none =>
    simp only [pexec, hf, showResolvedType]
    exact reconcile_activeVariant rfl
  | some st =>
    simp only [pexec, hf, showResolvedType]
    exact reconcile_activeVariant rfl

theorem pexec_show_replaces (s : ProvState) (opts : NotificationOptions)
    (i : Nat) (v : VarState)
    (ha : activeInst s = some (i, v))
    (hne : v.variant ≠ showResolvedType s opts) :
    (pexec s (.showNotif opts)).closeRefIdx = some s.instances.length ∧
    (pexec s (.showNotif opts)).activeIdx = some s.instances.length ∧
    i ≠ s.instances.length ∧
    (pexec s (.showNotif opts)).instances.get? i = some (unmountVar v) := by
  obtain ⟨hidx, hget⟩ := activeInst_some ha
  have hlt : i < s.instances.length := (List.get?_eq_some.mp hget).1
  have hne2 : i ≠ s.instances.length := Nat.ne_of_lt hlt
  cases hf : opts.forceStyle with
  | none =>
    simp only [showResolvedType, hf] at hne
    simp only [pexec, hf]
    unfold reconcile
    rw [if_pos rfl]
    have ha2 : activeInst
        { s with curOptions := opts, visible := true } = some (i, v) := ha
    rw [ha2]
    dsimp only
    rw [if_neg hne]
    unfold statusEffect mountActive
    refine ⟨?_, ?_, hne2, ?_⟩
    · simp [List.length_set]
    · simp [List.length_set]
    · rw [List.get?_append (by simpa [List.length_set] using hlt)]
      exact List.get?_set_eq_of_lt _ hlt
  | some st =>
    simp only [showResolvedType, hf] at hne
    simp only [pexec, hf]
    unfold reconcile
    rw [if_pos rfl]
    have ha2 : activeInst
        { s with
          curOptions := opts
          deviceType := styleToDeviceType st
          visible := true } = some (i, v) := ha
    rw [ha2]
    dsimp only
    rw [if_neg hne]
    unfold statusEffect mountActive
    refine ⟨?_, ?_, hne2, ?_⟩
    · simp [List.length_set]
    · simp [List.length_set]
    · rw [List.get?_append (by simpa [List.length_set] using hlt)]
      exact List.get?_set_eq_of_lt _ hlt

/-!
Claim theorems.
-/

/-- Claim C5: for every device identifier in the dynamic-island
membership table detectDeviceType returns DYNAMIC_ISLAND; for every
identifier in the notch table it returns NOTCH; and for any other string
or an undefined or empty identifier it returns STANDARD. -/
theorem c5_device_classification :
    (∀ id ∈ devicesWithDynamicIsland,
      detectDeviceType (some id) = .dynamicIsland) ∧
    (∀ id ∈ devicesWithNotch, detectDeviceType (some id) = .notch) ∧
    (∀ id : String, id ∉ devicesWithDynamicIsland → id ∉ devicesWithNotch →
      detectDeviceType (some id) = .standard) ∧
    detectDeviceType none = .standard ∧
    detectDeviceType (some "") = .standard := by
  refine ⟨by decide, by decide, ?_, rfl, by decide⟩
  intro id h1 h2
  by_cases he : id = ""
  · subst he; rfl
  · simp [detectDeviceType, he, h1, h2]

/-- Claim C5 witness: the classification applied at a concrete member of
each table and at an unknown identifier. -/
theorem c5_witness :
    detectDeviceType (some "iPhone14,2") = .dynamicIsland ∧
    detectDeviceType (some "iPhone10,3") = .notch ∧
    detectDeviceType (some "Pixel 9") = .standard :=
  ⟨c5_device_classification.1 "iPhone14,2" (by decide),
   c5_device_classification.2.1 "iPhone10,3" (by decide),
   c5_device_classification.2.2.1 "Pixel 9" (by decide) (by decide)⟩

/-- Claim C6: getDeviceAnimationConfig refines the specification's
resolveProfile.  The base profile is selected from the explicitly
supplied device type when one is given (the identifier-derived class is
not consulted), otherwise from the classified identifier; the
exact-identifier override is shallow-merged over the base; and an
identifier with no table entry contributes nothing, so overrides apply
only on exact identifier equality. -/
theorem c6_profile_resolution :
    (∀ (id : Option String) (t : DeviceType),
      getDeviceAnimationConfig id (some t)
        = mergeConfig (baseConfigFor t) (specificConfigFor id)) ∧
    (∀ id : Option String,
      getDeviceAnimationConfig id none
        = mergeConfig (baseConfigFor (detectDeviceType id))
            (specificConfigFor id)) ∧
    (∀ id : String, id ∉ deviceSpecificKeys →
      specificConfigFor (some id) = {}) ∧
    (∀ (id : String) (t : DeviceType), id ∉ deviceSpecificKeys →
      getDeviceAnimationConfig (some id) (some t) = baseConfigFor t) := by
  have hmain : ∀ (id : Option String) (t : DeviceType),
      getDeviceAnimationConfig id (some t)
        = mergeConfig (baseConfigFor t) (specificConfigFor id) := by
    intro id t
    cases id with
    | none => cases t <;> rfl
    | some id =>
      by_cases he : id = ""
      · subst he; cases t <;> rfl
      · cases hfind : deviceSpecificConfigs.find? (fun p => p.1 = id) with
        | none =>
          cases t <;>
            simp [getDeviceAnimationConfig, mergeConfig, baseConfigFor,
              specificConfigFor, he, hfind]
        | some p =>
          cases t <;>
            simp [getDeviceAnimationConfig, mergeConfig, baseConfigFor,
              specificConfigFor, he, hfind]
  have hkeys : ∀ id : String, id ∉ deviceSpecificKeys →
      specificConfigFor (some id) = {} := by
    intro id hid
    have hfind : deviceSpecificConfigs.find? (fun p => p.1 = id) = none := by
      apply List.find?_eq_none.mpr
      intro x hx
      simp only [decide_eq_true_eq]
      intro heq
      exact hid (heq ▸ List.mem_map_of_mem Prod.fst hx)
    unfold specificConfigFor
    dsimp only
    rw [hfind]
    by_cases he : id = "" <;> simp [he]
  have hempty : ∀ b : DeviceAnimationConfig, mergeConfig b {} = b :=
    fun b => rfl
  refine ⟨hmain, ?_, hkeys, ?_⟩
  · intro id
    have hswap : getDeviceAnimationConfig id none
        = getDeviceAnimationConfig id (some (detectDeviceType id)) := rfl
    rw [hswap]
    exact hmain id _
  · intro id t hid
    rw [hmain (some id) t, hkeys id hid]
    exact hempty _

/-- Claim C6 witness: resolution applied at a concrete identifier with an
override entry under an explicit class, and at an identifier that merely
extends an override key by one character — exact matching only, so the
near-miss gets the plain base profile. -/
theorem c6_witness :
    getDeviceAnimationConfig (some "iPhone16,11") (some .notch) = notchConfig ∧
    getDeviceAnimationConfig (some "iPhone14,2") (some .notch) = notchConfig ∧
    getDeviceAnimationConfig (some "iPhone16,1") (some .notch)
      = mergeConfig notchConfig
          { minWidthRatio := some (35/100), maxWidthRatio := some (8/10),
            expandedHeight := some 80, initialScale := some (9/10) } := by
  refine ⟨c6_profile_resolution.2.2.2 "iPhone16,11" .notch (by decide),
    c6_profile_resolution.2.2.2 "iPhone14,2" .notch (by decide), ?_⟩
  rw [c6_profile_resolution.1 (some "iPhone16,1") .notch]
  with_unfolding_all rfl

/-- Claim C9: a zero or absent autoHideDelay does not hide immediately
and does not disable auto-hide — because the sources compute
autoHideDelay || DEFAULT_AUTO_HIDE_DELAY, every variant arms its
auto-hide timer at the default 3000 ms, after the ordinary appearance
timer, and no hide has occurred at mount. -/
theorem c9_auto_hide_default :
    effectiveAutoHideDelay (some 0) = 3000 ∧
    effectiveAutoHideDelay none = 3000 ∧
    DEFAULT_AUTO_HIDE_DELAY = 3000 ∧
    (∀ wW wH : ℚ, (mountVar .notch wW wH { autoHideDelay := some 0 }).timers
      = [⟨175, .textAppear⟩, ⟨3000, .autoHide⟩]) ∧
    (∀ wW wH : ℚ,
      (mountVar .dynamicIsland wW wH { autoHideDelay := some 0 }).timers
        = [⟨175, .textAppear⟩, ⟨3000, .autoHide⟩]) ∧
    (∀ wW wH : ℚ, (mountVar .standard wW wH { autoHideDelay := some 0 }).timers
      = [⟨50, .toastAppear⟩, ⟨3000, .autoHide⟩]) ∧
    (∀ wW wH : ℚ, (mountVar .notch wW wH {}).timers
      = [⟨175, .textAppear⟩, ⟨3000, .autoHide⟩]) ∧
    (∀ wW wH : ℚ, (mountVar .standard wW wH {}).timers
      = [⟨50, .toastAppear⟩, ⟨3000, .autoHide⟩]) ∧
    (∀ (v : DeviceType) (wW wH : ℚ),
      (mountVar v wW wH { autoHideDelay := some 0 }).onHideCount = 0) :=
  ⟨rfl, rfl, rfl, fun _ _ => rfl, fun _ _ => rfl, fun _ _ => rfl,
   fun _ _ => rfl, fun _ _ => rfl, fun v _ _ => by cases v <;> rfl⟩

/-- Claim C10: when the caller does not supply showShadow, the toast
variant defaults it to true while the dynamic-island and notch variants
default it to false; a supplied value always wins. -/
theorem c10_shadow_defaults :
    resolvedShowShadow .standard none = true ∧
    resolvedShowShadow .dynamicIsland none = false ∧
    resolvedShowShadow .notch none = false ∧
    (∀ (v : DeviceType) (b : Bool), resolvedShowShadow v (some b) = b) :=
  ⟨rfl, rfl, rfl, fun _ _ => rfl⟩

/-- Claim C1 counterexample: on the notch variant (window 390 × 844, base
notch profile), the first layout event (content 100 × 20) commits the
expanded-height target 80 — the padded measured height clamped to the
per-class minimum — and sets the measured-once ref; a second layout event
(content 100 × 60) of the same instance changes the committed target to
119 and resets the width target from 140 to the maximum 351, so the
committed expanded-height target is not fixed after the first
measurement. -/
theorem c1_counterexample :
    (runV (mountVar .notch 390 844 {}) [.layout 100 20]).measuredOnce = true ∧
    (runV (mountVar .notch 390 844 {}) [.layout 100 20]).contentH = 80 ∧
    (runV (mountVar .notch 390 844 {}) [.layout 100 20]).contentW = 140 ∧
    (runV (mountVar .notch 390 844 {})
        [.layout 100 20, .layout 100 60]).contentH = 119 ∧
    (runV (mountVar .notch 390 844 {})
        [.layout 100 20, .layout 100 60]).contentW = 351 ∧
    (80 : ℚ) ≠ 119 := by
  with_unfolding_all decide

/-- Claim C1 (amended): only the toast variant captures the measured size
exactly once — once its measured-once ref is set no later event changes
the committed width or height; the pill variants (notch and dynamic
island) recompute the committed height target from every layout event of
a mounted instance, as the measured height plus the variant's content
padding clamped below by the profile's expanded height. -/
theorem c1_amended :
    (∀ (s : VarState) (cmds : List VarCmd), s.variant = .standard →
      s.measuredOnce = true →
      (runV s cmds).contentH = s.contentH ∧
      (runV s cmds).contentW = s.contentW) ∧
    (∀ (s : VarState) (w h : ℚ), s.isMounted = true →
      s.variant ≠ .standard →
      (execV s (.layout w h)).contentH
        = max (h + contentPadTop s + contentPadBottom s)
            s.deviceConfig.expandedHeight) := by
  constructor
  · intro s cmds hv hm
    have h := runV_toastFull cmds s hv hm
    exact ⟨h.2.2.1, h.2.2.2⟩
  · intro s w h hm hv
    show (onContentLayout s w h).contentH = _
    unfold onContentLayout
    cases hvar : s.variant with
    | standard => exact absurd hvar hv
    | notch => simp [hm]
    | dynamicIsland => simp [hm]

/-- Claim C1 witness: the amended theorem applied to a measured toast
instance (a later layout and a press change nothing) and to a freshly
mounted notch instance at a concrete layout event. -/
theorem c1_witness :
    ((runV (runV (mountVar .standard 390 844 {}) [.layout 200 30])
        [.layout 200 77, .press]).contentH
      = (runV (mountVar .standard 390 844 {}) [.layout 200 30]).contentH) ∧
    (execV (mountVar .notch 390 844 {}) (.layout 100 60)).contentH
      = max ((60 : ℚ) + contentPadTop (mountVar .notch 390 844 {})
          + contentPadBottom (mountVar .notch 390 844 {}))
          (mountVar .notch 390 844 {}).deviceConfig.expandedHeight := by
  constructor
  · exact (c1_amended.1 (runV (mountVar .standard 390 844 {}) [.layout 200 30])
      [.layout 200 77, .press] (by with_unfolding_all rfl)
      (by with_unfolding_all rfl)).1
  · exact c1_amended.2 (mountVar .notch 390 844 {}) 100 60
      (by with_unfolding_all rfl) (by with_unfolding_all decide)

/-- Claim C2 counterexample: a mounted notch instance receives two hide
triggers in a row (hide() called twice; a press or timer runs the same
routine).  Each trigger runs the full collapse chain and onHide is
invoked twice, so onHide is not invoked at most once per instance. -/
theorem c2_counterexample :
    (runV (mountVar .notch 390 844 {})
      [.press, .press, .advance, .advance, .advance, .advance, .advance,
       .advance, .advance]).onHideCount = 2 := by
  with_unfolding_all rfl

/-- Claim C2 (amended): hideNotification has no collapsing guard, so each
hide trigger runs the full collapse chain and onHide can be invoked once
per trigger.  What holds is the per-trigger bound — in any run of a
freshly mounted instance the number of onHide invocations is at most the
number of hide triggers plus one for the auto-hide timer — and the
disposed-state no-op: a hide trigger delivered after the instance is
unmounted with no onHide dispatch pending never invokes onHide. -/
theorem c2_amended :
    (∀ (v : DeviceType) (wW wH : ℚ) (opts : NotificationOptions)
        (cmds : List VarCmd),
      (runV (mountVar v wW wH opts) cmds).onHideCount
        ≤ cmds.countP (fun c => c == VarCmd.press) + 1) ∧
    (∀ (s : VarState) (cmds : List VarCmd), s.isMounted = false →
      s.timers.countP isStepC = 0 →
      (runV s cmds).onHideCount = s.onHideCount) := by
  constructor
  · intro v wW wH opts cmds
    have h1 := runV_potential (mountVar v wW wH opts) cmds
    have h2 : hidePotential (mountVar v wW wH opts) ≤ 1 := by
      cases v <;> by_cases hd : opts.disableAutoHide = true <;>
        simp [mountVar, hidePotential, autoHideTimers, hd, List.countP_cons,
          List.countP_append, chainTimer, chainAct]
    have h3 : (runV (mountVar v wW wH opts) cmds).onHideCount
        ≤ hidePotential (runV (mountVar v wW wH opts) cmds) :=
      Nat.le_add_right _ _
    omega
  · intro s cmds hm hc
    exact (runV_unmounted cmds s hm hc).2.2.1

/-- Claim C2 witness: the amended bound at a single hide trigger, and the
disposed-state no-op at a concrete unmounted instance that receives a
further trigger and drains its timers. -/
theorem c2_witness :
    ((runV (mountVar .notch 390 844 {}) [.press]).onHideCount
      ≤ List.countP (fun c => c == VarCmd.press) [VarCmd.press] + 1) ∧
    ((runV (runV (mountVar .notch 390 844 {}) [.unmount])
        [.press, .advance, .advance, .advance]).onHideCount
      = (runV (mountVar .notch 390 844 {}) [.unmount]).onHideCount) := by
  constructor
  · exact c2_amended.1 .notch 390 844 {} [.press]
  · exact c2_amended.2 (runV (mountVar .notch 390 844 {}) [.unmount])
      [.press, .advance, .advance, .advance] (by with_unfolding_all rfl)
      (by with_unfolding_all rfl)

/-- Claim C8 counterexample: a notch instance whose hide chain is in
flight is unmounted before disposal.  The cleanup removes only the
auto-hide timer: a pending onHide dispatch survives the unmount and fires
afterwards, invoking onHide against the torn-down instance; and in a
second run a collapse step pending at unmount fires afterwards and
mutates the expansion value from 1 to 0.  So not all pending timers are
cancelled, onHide can fire after unmount, and animated state is mutated
after unmount. -/
theorem c8_counterexample :
    ((runV (mountVar .notch 390 844 {})
        [.press, .advance, .advance, .advance, .unmount]).isMounted
      = false) ∧
    ((runV (mountVar .notch 390 844 {})
        [.press, .advance, .advance, .advance, .unmount]).timers
      = [⟨525, .stepC⟩]) ∧
    ((runV (mountVar .notch 390 844 {})
        [.press, .advance, .advance, .advance, .unmount]).onHideCount
      = 0) ∧
    ((runV (mountVar .notch 390 844 {})
        [.press, .advance, .advance, .advance, .unmount, .advance]).onHideCount
      = 1) ∧
    ((runV (mountVar .notch 390 844 {})
        [.press, .unmount, .advance]).expansion = 1) ∧
    ((runV (mountVar .notch 390 844 {})
        [.press, .unmount, .advance, .advance]).expansion = 0) := by
  set_option maxRecDepth 4000 in with_unfolding_all decide

/-- Claim C8 (amended): the unmount cleanup cancels only the auto-hide
timer; pending hide-chain timers keep firing and may still mutate
animated values or deliver an already-scheduled onHide dispatch.  What
holds is: after the cleanup no auto-hide timer is pending, and when no
onHide dispatch was pending at unmount, no later event of the unmounted
instance invokes onHide or changes the completely-hidden flag. -/
theorem c8_amended :
    (∀ s : VarState,
      (unmountVar s).timers.countP (fun t => t.act == .autoHide) = 0) ∧
    (∀ (s : VarState) (cmds : List VarCmd), s.isMounted = false →
      s.timers.countP isStepC = 0 →
      (runV s cmds).onHideCount = s.onHideCount ∧
      (runV s cmds).completelyHidden = s.completelyHidden) := by
  constructor
  · intro s
    exact countP_filter_not_self (fun t => t.act == .autoHide) s.timers
  · intro s cmds hm hc
    have h := runV_unmounted cmds s hm hc
    exact ⟨h.2.2.1, h.2.2.2⟩

/-- Claim C8 witness: the amended theorem at a concrete instance — the
cleanup leaves no auto-hide timer, and an unmounted instance with no
pending dispatch keeps its onHide count through further events. -/
theorem c8_witness :
    ((unmountVar (mountVar .notch 390 844 {})).timers.countP
      (fun t => t.act == .autoHide) = 0) ∧
    ((runV (runV (mountVar .notch 390 844 {}) [.press, .unmount])
        [.advance, .advance]).onHideCount
      = (runV (mountVar .notch 390 844 {}) [.press, .unmount]).onHideCount) := by
  constructor
  · exact c8_amended.1 (mountVar .notch 390 844 {})
  · exact (c8_amended.2 (runV (mountVar .notch 390 844 {}) [.press, .unmount])
      [.advance, .advance] (by with_unfolding_all rfl)
      (by with_unfolding_all rfl)).1

/-- Claim C4 counterexample: the provider has no forced style and the
device lookup classifies iPhone16,1 as dynamic island; a show call
forcing the toast style switches the device-type state, and a later show
call with no forceVariant mounts the standard toast again rather than the
last-detected dynamic-island class — the forced style is sticky, so a
show without forceVariant does not resolve the variant from the
last-detected device class. -/
theorem c4_counterexample :
    activeVariantOf (prun (pinit 390 844 none)
        [.detect (some "iPhone16,1"), .showNotif { forceStyle := some .toast },
         .showNotif {}]) = some .standard ∧
    (prun (pinit 390 844 none)
        [.detect (some "iPhone16,1"), .showNotif { forceStyle := some .toast },
         .showNotif {}]).lastDetected = some .dynamicIsland ∧
    DeviceType.standard ≠ DeviceType.dynamicIsland := by
  set_option maxRecDepth 8000 in with_unfolding_all decide

/-- Claim C4 (amended): every show call mounts the variant animator of
the resolved device type — the forced style when present (so forcing
notch on a dynamic-island device mounts the notch animator), otherwise
the provider's current device-type state.  That state equals the
last-detected class only until some show call supplies a forced style,
because a forced style persists in the state for later calls. -/
theorem c4_amended :
    (∀ (s : ProvState) (opts : NotificationOptions),
      activeVariantOf (pexec s (.showNotif opts))
        = some (showResolvedType s opts)) ∧
    (∀ (s : ProvState) (opts : NotificationOptions) (st : NotifStyle),
      opts.forceStyle = some st →
      showResolvedType s opts = styleToDeviceType st) ∧
    (∀ (s : ProvState) (opts : NotificationOptions),
      opts.forceStyle = none → showResolvedType s opts = s.deviceType) := by
  refine ⟨pexec_show_active, ?_, ?_⟩
  · intro s opts st hf
    simp [showResolvedType, hf]
  · intro s opts hf
    simp [showResolvedType, hf]

/-- Claim C4 witness: the specification's scenario — on a device
classified as dynamic island, show with forceVariant notch mounts the
notch variant animator — plus the resolution equations at concrete
option bags. -/
theorem c4_witness :
    activeVariantOf (pexec (prun (pinit 390 844 none)
        [.detect (some "iPhone16,1"), .showNotif {}])
      (.showNotif { forceStyle := some .notch })) = some .notch ∧
    showResolvedType (pinit 390 844 none) { forceStyle := some .notch }
      = .notch ∧
    showResolvedType (pinit 390 844 none) {} = .standard := by
  refine ⟨?_, c4_amended.2.1 _ _ .notch rfl, c4_amended.2.2 _ _ rfl⟩
  rw [c4_amended.1 (prun (pinit 390 844 none)
      [.detect (some "iPhone16,1"), .showNotif {}])
      { forceStyle := some .notch }]
  with_unfolding_all rfl

/-- Claim C7: in every run of the arbiter from its initial state, the
shared status-bar hidden flag is true exactly when a notification is
visible and the resolved device class is dynamic island or notch, and
false in every other state.  In the embedding the flag is written only by
the arbiter's reconciliation step (the source's single useEffect on
visible and deviceType, the one writer of the store). -/
theorem c7_status_flag :
    ∀ (wW wH : ℚ) (pfs : Option NotifStyle) (cmds : List PCmd),
      (prun (pinit wW wH pfs) cmds).statusBarHidden
        = ((prun (pinit wW wH pfs) cmds).visible &&
            ((prun (pinit wW wH pfs) cmds).deviceType == .dynamicIsland ||
             (prun (pinit wW wH pfs) cmds).deviceType == .notch)) := by
  intro wW wH pfs cmds
  exact prun_statusInv cmds (pinit wW wH pfs) rfl

/-- Claim C3: a close handle captured from a superseded variant animator
instance is a safe no-op.  (a) Invoking it — total in the embedding, so
it cannot throw — leaves every arbiter-owned field and every other
instance, including the newly active one, unchanged, and does not invoke
the superseded instance's onHide; (b) draining any number of the
superseded instance's timers afterwards still never invokes its onHide
nor touches the arbiter, provided no onHide dispatch was already pending
when it was superseded; (c) a show call that replaces the active
instance unmounts it and registers the fresh instance as both the active
slot and the close target, so a superseded instance is never the target
of hide() or getCloseRef(). -/
theorem c3_stale_close_handle :
    (∀ (s : ProvState) (i : Nat) (v : VarState),
      s.instances.get? i = some v → v.isMounted = false →
      provFieldsEq (pexec s (.invokeHandle i)) s ∧
      (∀ j, j ≠ i →
        (pexec s (.invokeHandle i)).instances.get? j = s.instances.get? j) ∧
      ∃ v2, (pexec s (.invokeHandle i)).instances.get? i = some v2 ∧
        v2.isMounted = false ∧ v2.onHideCount = v.onHideCount) ∧
    (∀ (s : ProvState) (i : Nat) (v : VarState) (n : Nat),
      s.instances.get? i = some v → v.isMounted = false →
      v.timers.countP isStepC = 0 →
      provFieldsEq (prun s (List.replicate n (.advanceInst i))) s ∧
      ∃ v2,
        (prun s (List.replicate n (.advanceInst i))).instances.get? i
          = some v2 ∧ v2.onHideCount = v.onHideCount) ∧
    (∀ (s : ProvState) (opts : NotificationOptions) (i : Nat) (v : VarState),
      activeInst s = some (i, v) → v.variant ≠ showResolvedType s opts →
      (pexec s (.showNotif opts)).closeRefIdx = some s.instances.length ∧
      (pexec s (.showNotif opts)).activeIdx = some s.instances.length ∧
      i ≠ s.instances.length ∧
      (pexec s (.showNotif opts)).instances.get? i = some (unmountVar v)) := by
  refine ⟨?_, ?_, ?_⟩
  · intro s i v hv hm
    obtain ⟨f1, f2, v2, hv2, m2, o2, _, _⟩ := pexec_stale_invoke s i v hv hm
    exact ⟨f1, f2, v2, hv2, m2, o2⟩
  · intro s i v n hv hm hc
    obtain ⟨p1, p2, v2, hv2, m2, c2, o2⟩ := prun_stale_advances n s i v hv hm hc
    exact ⟨p1, v2, hv2, o2⟩
  · intro s opts i v ha hne
    exact pexec_show_replaces s opts i v ha hne

/-- Claim C3 witness: the stale-handle theorem applied to the concrete
superseded-instance scenario — invoking the stale handle and draining
three of the superseded instance's timers leave the arbiter unchanged,
and the replacing show registered instance 1, not the superseded
instance 0, as the close target. -/
theorem c3_witness :
    provFieldsEq (pexec staleScenarioAfter (.invokeHandle 0))
      staleScenarioAfter ∧
    provFieldsEq (prun staleScenarioAfter (List.replicate 3 (.advanceInst 0)))
      staleScenarioAfter ∧
    (pexec staleScenarioBefore
        (.showNotif { forceStyle := some .notch })).closeRefIdx
      = some staleScenarioBefore.instances.length := by
  refine ⟨?_, ?_, ?_⟩
  · exact (c3_stale_close_handle.1 staleScenarioAfter 0 staleOldInst
      (by set_option maxRecDepth 8000 in with_unfolding_all rfl)
      (by set_option maxRecDepth 8000 in with_unfolding_all rfl)).1
  · exact (c3_stale_close_handle.2.1 staleScenarioAfter 0 staleOldInst 3
      (by set_option maxRecDepth 8000 in with_unfolding_all rfl)
      (by set_option maxRecDepth 8000 in with_unfolding_all rfl)
      (by set_option maxRecDepth 8000 in with_unfolding_all rfl)).1
  · exact (c3_stale_close_handle.2.2 staleScenarioBefore
      { forceStyle := some .notch } 0 (mountVar .dynamicIsland 390 844 {})
      (by set_option maxRecDepth 8000 in with_unfolding_all rfl)
      (by set_option maxRecDepth 8000 in with_unfolding_all decide)).1

end DynamicToast
